import Mathlib

/-!
Verification of the analyze-transcript repository.

The repository is a browser application that uploads a PDF transcript,
extracts its text, asks a generative-AI service for a bullet list of
course/grade lines plus a prose summary, and (per the specification's
course-matching core) parses that summary into (subject, number) pairs and
joins them against a transfer-agreement table.

The source tree holds two near-duplicate application variants (a manual
summarize trigger and an auto-summarize variant).  The course-matching
core itself (parsePassedCourses, matchAgreements, the transfer-matching
variant) is not present in the source tree, so those definitions are
modelled from the specification, as marked on each.  Everything about the
application state machine (file upload handling, PDF text extraction
outcomes, the transcript-validity warning and the auto-summarize effect)
is translated from the auto-summarize variant in src/index.tsx.
-/

namespace AnalyzeTranscript

/-! ## Summary parser (spec-modelled) -/

/-- A single course the parser believes the student passed. -/
structure ParsedCourse where
  subject : String
  number : String
deriving DecidableEq, Repr

/-- Modelled from the spec: the letters usable as the letter part of a
grade token.  The spec's grade-token alternatives are "a single uppercase
letter optionally followed by `+`/`-`; or a letter in the range B-D/F/P
optionally followed by `+`/`-`"; since the spec states repeatedly that the
grade-token shape excludes the bare letter "W" (its second alternative
would otherwise be redundant), the first alternative is read as the letter
A, so the letter grades are A-D, F and P. -/
def isGradeLetter (c : Char) : Bool :=
  c == 'A' || c == 'B' || c == 'C' || c == 'D' || c == 'F' || c == 'P'

/-- Modelled from the spec: a letter grade token is a grade letter
optionally followed by `+` or `-`. -/
def isLetterGrade : List Char → Bool
  | [c] => isGradeLetter c
  | [c, m] => isGradeLetter c && (m == '+' || m == '-')
  | _ => false

/-- Modelled from the spec: a numeric grade token is a 1-3 digit number
optionally followed by `%`: a leading digit run of length 1-3 and nothing
after it except possibly a single percent sign. -/
def isNumericGrade (cs : List Char) : Bool :=
  let ds := cs.takeWhile Char.isDigit
  let rest := cs.dropWhile Char.isDigit
  decide (1 ≤ ds.length) && decide (ds.length ≤ 3) && (rest == [] || rest == ['%'])

/-- Modelled from the spec: the recognized grade token. -/
def isGradeToken (cs : List Char) : Bool :=
  isLetterGrade cs || isNumericGrade cs

/-- Modelled from the spec: a bullet marker is `*` or `-`. -/
def isBullet (c : Char) : Bool :=
  c == '*' || c == '-'

/-- Remove leading and trailing whitespace characters. -/
def trimChars (cs : List Char) : List Char :=
  ((cs.dropWhile Char.isWhitespace).reverse.dropWhile Char.isWhitespace).reverse

/-- Modelled from the spec: the last stage of scanning a line, after the
colon.  The remainder of the line, stripped of surrounding whitespace,
must be a grade token. -/
def parseGrade (subj num afterColon : List Char) : Option ParsedCourse :=
  if isGradeToken (trimChars afterColon) then some ⟨⟨subj⟩, ⟨num⟩⟩ else none

/-- Modelled from the spec: after the course-number token the line must
carry a colon (optionally preceded by whitespace). -/
def parseColon (subj num rest : List Char) : Option ParsedCourse :=
  match rest.dropWhile Char.isWhitespace with
  | ':' :: afterColon => parseGrade subj num afterColon
  | _ => none

/-- Modelled from the spec: after the subject token comes the
course-number token of 3-5 alphanumeric characters (optionally preceded by
whitespace). -/
def parseNumber (subj rest : List Char) : Option ParsedCourse :=
  let beforeNum := rest.dropWhile Char.isWhitespace
  let num := beforeNum.takeWhile Char.isAlphanum
  if 3 ≤ num.length ∧ num.length ≤ 5 then
    parseColon subj num (beforeNum.dropWhile Char.isAlphanum)
  else none

/-- Modelled from the spec: after the bullet marker comes the subject
token of 2-6 letters (optionally preceded by whitespace). -/
def parseSubject (rest : List Char) : Option ParsedCourse :=
  let afterBullet := rest.dropWhile Char.isWhitespace
  let subj := afterBullet.takeWhile Char.isAlpha
  if 2 ≤ subj.length ∧ subj.length ≤ 6 then
    parseNumber subj (afterBullet.dropWhile Char.isAlpha)
  else none

/-- Modelled from the spec: parse one line of the summary.  The recognized
line shape is optional leading whitespace, a bullet marker (`*` or `-`), a
subject token of 2-6 letters, a course-number token of 3-5 alphanumeric
characters, a colon, and a grade token (whitespace may separate the
tokens, as in the spec's examples).  A line of any other shape yields
nothing. -/
def parseCourseLine (cs : List Char) : Option ParsedCourse :=
  match cs.dropWhile Char.isWhitespace with
  | [] => none
  | b :: rest => if isBullet b then parseSubject rest else none

/-- Split a character sequence into its newline-separated lines. -/
def splitLines : List Char → List (List Char)
  | [] => [[]]
  | c :: rest =>
    if c = '\n' then [] :: splitLines rest
    else
      match splitLines rest with
      | [] => [[c]]
      | l :: ls => (c :: l) :: ls

/-- Join a list of lines with newline separators (the inverse of
splitLines on newline-free lines). -/
def joinLines : List (List Char) → List Char
  | [] => []
  | [l] => l
  | l :: l2 :: ls => l ++ '\n' :: joinLines (l2 :: ls)

/-- Modelled from the spec: parsePassedCourses converts the AI-generated
summary into the ordered sequence of ParsedCourse, one per line matching
the recognized shape; all other lines are silently ignored. -/
def parsePassedCourses (summary : String) : List ParsedCourse :=
  (splitLines summary.toList).filterMap parseCourseLine

/-! ## Agreement matcher (spec-modelled) -/

/-- One row of the externally supplied, read-only transfer-agreement
table. -/
structure TransferAgreement where
  Id : Int
  SndrInstitutionName : String
  SndrSubjectCode : String
  SndrCourseNumber : String
  SndrCourseTitle : String
  SndrCourseCredit : Nat
  RcvrInstitutionName : String
  Detail : String
  Condition : Option String
deriving DecidableEq, Repr

/-- Modelled from the spec: comparison normalization, trimming surrounding
whitespace and normalizing letter case. -/
def norm (s : String) : List Char :=
  (trimChars s.toList).map Char.toLower

/-- Modelled from the spec: a TransferAgreement matches a ParsedCourse
when, after trimming whitespace and normalizing case on both sides, the
sender subject code equals the course subject and the sender course number
equals the course number. -/
def agreementMatches (a : TransferAgreement) (c : ParsedCourse) : Bool :=
  norm a.SndrSubjectCode == norm c.subject && norm a.SndrCourseNumber == norm c.number

/-- Modelled from the spec: matchAgreements iterates the parsed courses in
their given order and, for each, appends every matching agreement found in
table order. -/
def matchAgreements (courses : List ParsedCourse) (table : List TransferAgreement) :
    List TransferAgreement :=
  courses.flatMap (fun c => table.filter (fun a => agreementMatches a c))

/-- A concrete agreement row whose sender subject code carries surrounding
whitespace and lower case, used to exercise the normalization of the
matching rule. -/
def agreementEngl : TransferAgreement :=
  ⟨1, "Sender College", " engl ", "101", "English Composition", 3,
    "Receiver University", "ENGL 110 (3 credits)", none⟩

/-- Modelled from the spec: the three states of the reference data
loader. -/
inductive LoadState where
  | loading
  | loaded (table : List TransferAgreement)
  | failed
deriving DecidableEq

/-- Modelled from the spec: the matching-result states observed by the
rendering layer. -/
inductive MatchState where
  | Uncomputed
  | ComputedEmpty
  | ComputedNonEmpty (results : List TransferAgreement)
  | Blocked
deriving DecidableEq

/-- Modelled from the spec: the matching result as a function of the
reference-table load state and the (possibly absent) summary text.
Matching never runs while the table is loading or failed; a table load
failure with a present summary is surfaced as Blocked rather than running
the join against an empty or partial table. -/
def computeMatchState (table : LoadState) (summary : Option String) : MatchState :=
  match summary with
  | none => MatchState.Uncomputed
  | some s =>
    match table with
    | LoadState.loading => MatchState.Uncomputed
    | LoadState.failed => MatchState.Blocked
    | LoadState.loaded t =>
      let results := matchAgreements (parsePassedCourses s) t
      if results.isEmpty then MatchState.ComputedEmpty
      else MatchState.ComputedNonEmpty results

/-! ## Application state machine (from src/index.tsx, auto-summarize variant) -/

/-- The React state of the App component: each field is one useState hook
of the auto-summarize variant (the greeting message, which no claim
touches, is omitted). -/
structure AppState where
  error : Option String
  pdfData : Bool
  fileStatus : Option String
  pdfProcessingStatus : Option String
  extractedText : Option String
  summaryText : Option String
  summaryStatus : Option String
  isSummarizing : Bool
  transcriptValidityMessage : Option String
deriving DecidableEq, Repr

/-- The initial App state: every string state starts null and
isSummarizing starts false. -/
def initState : AppState :=
  ⟨none, false, none, none, none, none, none, false, none⟩

/-- resetPdfStates clears every PDF-related state field (it does not touch
the general error message). -/
def resetPdfStates (s : AppState) : AppState :=
  { s with
    pdfData := false
    fileStatus := none
    pdfProcessingStatus := none
    extractedText := none
    summaryText := none
    summaryStatus := none
    isSummarizing := false
    transcriptValidityMessage := none }

/-- JavaScript truthiness of a nullable string: null and the empty string
are falsy. -/
def strTruthy : Option String → Bool
  | none => false
  | some t => t ≠ ""

/-- The outcome of the pdfjs text extraction: either the per-page text
strings, or a rejection of the loading/paging promises. -/
inductive PdfExtraction where
  | success (pages : List String)
  | failure

/-- The full text accumulated by extractTextFromPdf: each page text
followed by a newline, concatenated, then trimmed. -/
def extractedFullText (pages : List String) : String :=
  ⟨trimChars ((pages.map (fun p => p.toList ++ ['\n'])).flatten)⟩

/-- Containment of one character sequence in another, as
String.prototype.includes: the needle occurs as a contiguous infix. -/
def needleIn (nd : List Char) : List Char → Bool
  | [] => nd.isEmpty
  | c :: rest => nd.isPrefixOf (c :: rest) || needleIn nd rest

/-- Lower-cased containment test used by the transcript-validity check,
trimmedText.toLowerCase().includes(needle). -/
def containsLower (needle : String) (t : String) : Bool :=
  needleIn needle.toList (t.toList.map Char.toLower)

/-- extractTextFromPdf as a state transition: it first sets the processing
status and clears the text, summary and validity states; then, on the
given extraction outcome, either stores the trimmed text (warning when it
does not contain "transcript" case-insensitively), reports that no text
could be extracted, or reports the extraction error. -/
def extractTextFromPdf (s : AppState) (res : PdfExtraction) : AppState :=
  let s0 := { s with
    pdfProcessingStatus := some "Extracting text from PDF..."
    extractedText := none
    summaryText := none
    summaryStatus := none
    transcriptValidityMessage := none }
  match res with
  | PdfExtraction.failure =>
    { s0 with
      error := some "Failed to extract text from the PDF. The file might be corrupted or password-protected."
      pdfProcessingStatus := some "Error extracting text."
      extractedText := none
      transcriptValidityMessage := none }
  | PdfExtraction.success pages =>
    let trimmedText := extractedFullText pages
    if trimmedText ≠ "" then
      { s0 with
        extractedText := some trimmedText
        transcriptValidityMessage :=
          if containsLower "transcript" trimmedText then none
          else some "Warning: The uploaded document does not appear to be a transcript."
        pdfProcessingStatus := none }
    else
      { s0 with
        extractedText := none
        pdfProcessingStatus := some "No text could be extracted from the PDF."
        transcriptValidityMessage := none }

/-- The guard of the auto-summarize effect: handleSummarize is invoked
exactly when text was extracted (truthy), the document passed the
transcript-validity check, no summarization is in flight, no summary
exists yet, and the AI client is available. -/
def autoSummarizeFires (s : AppState) (aiAvailable : Bool) : Bool :=
  strTruthy s.extractedText
    && s.transcriptValidityMessage == none
    && !s.isSummarizing
    && !strTruthy s.summaryText
    && aiAvailable

/-- A selected file as handleFileChange sees it: its MIME type and its
name. -/
structure UploadFile where
  mimeType : String
  name : String
deriving DecidableEq, Repr

/-- What handleFileChange did besides updating state: whether it cleared
the file input element and whether it started reading the file (which
leads to text extraction). -/
structure FileChangeOutcome where
  state : AppState
  inputCleared : Bool
  startedRead : Bool
deriving DecidableEq, Repr

/-- handleFileChange: clear the general error, reset all PDF states, then,
when a file is selected, reject a non-PDF MIME type with an error message
and a cleared input (without reading the file), or start reading a PDF
file. -/
def handleFileChange (s : AppState) (file : Option UploadFile) : FileChangeOutcome :=
  let s1 := resetPdfStates { s with error := none }
  match file with
  | none => ⟨s1, false, false⟩
  | some f =>
    if f.mimeType ≠ "application/pdf" then
      ⟨{ s1 with error := some "Invalid file type. Please upload a PDF file." }, true, false⟩
    else
      ⟨{ s1 with fileStatus := some ("Loading file: " ++ f.name ++ "...") }, false, true⟩

/-! ### Interleaving of uploads with an in-flight summarize call

handleSummarize is asynchronous: it sets isSummarizing and the status,
awaits the AI response, and on resolution stores the summary and clears
isSummarizing.  Nothing in the source cancels the pending promise or
guards its continuation, so the continuation runs against whatever state
is current when the response arrives.  The events below model the
observable interleavings: an upload (which runs handleFileChange
synchronously), the start of a summarize call, and the resolution of the
in-flight AI request. -/

/-- The application state together with whether a summarize request is in
flight (its promise pending). -/
structure SysState where
  app : AppState
  inflight : Bool
deriving DecidableEq, Repr

/-- An observable event of the event loop. -/
inductive Event where
  | upload (file : Option UploadFile)
  | summarizeStart
  | summarizeResolve (result : String)

/-- One event step.  upload applies handleFileChange (it does not cancel
an in-flight request - the source has no cancellation mechanism);
summarizeStart runs the synchronous prefix of handleSummarize when its
guard passes; summarizeResolve runs the continuation of the pending
request, which unconditionally stores the received summary. -/
def stepEvent (st : SysState) (e : Event) : SysState :=
  match e with
  | Event.upload f => { st with app := (handleFileChange st.app f).state }
  | Event.summarizeStart =>
    if strTruthy st.app.extractedText && !st.app.isSummarizing then
      { app := { st.app with
          isSummarizing := true
          summaryStatus := some "Generating summary..."
          summaryText := none
          error := none }
        inflight := true }
    else st
  | Event.summarizeResolve r =>
    if st.inflight then
      { app := { st.app with
          summaryText := some r
          summaryStatus := some "Summary complete!"
          isSummarizing := false }
        inflight := false }
    else st

/-- Run a sequence of events from a starting system state. -/
def runEvents (st : SysState) (es : List Event) : SysState :=
  es.foldl stepEvent st

/-! ## Helper lemmas about character classes and token scanning -/

theorem dropWhile_all_false (p : Char → Bool) (l : List Char)
    (h : ∀ c ∈ l, p c = false) : l.dropWhile p = l := by
  induction l with
  | nil => rfl
  | cons c t ih =>
    rw [List.dropWhile_cons_of_neg (by simp [h c (List.mem_cons_self c t)])]

theorem takeWhile_all_append (p : Char → Bool) (l1 : List Char) (c : Char)
    (l2 : List Char) (h1 : ∀ x ∈ l1, p x = true) (hc : p c = false) :
    (l1 ++ c :: l2).takeWhile p = l1 := by
  induction l1 with
  | nil => rw [List.nil_append, List.takeWhile_cons_of_neg (by simp [hc])]
  | cons a t ih =>
    rw [List.cons_append, List.takeWhile_cons_of_pos (h1 a (List.mem_cons_self a t))]
    rw [ih (fun x hx => h1 x (List.mem_cons_of_mem a hx))]

theorem dropWhile_all_append (p : Char → Bool) (l1 : List Char) (c : Char)
    (l2 : List Char) (h1 : ∀ x ∈ l1, p x = true) (hc : p c = false) :
    (l1 ++ c :: l2).dropWhile p = c :: l2 := by
  induction l1 with
  | nil => rw [List.nil_append, List.dropWhile_cons_of_neg (by simp [hc])]
  | cons a t ih =>
    rw [List.cons_append, List.dropWhile_cons_of_pos (h1 a (List.mem_cons_self a t))]
    exact ih (fun x hx => h1 x (List.mem_cons_of_mem a hx))

theorem isWhitespace_cases (c : Char) (h : c.isWhitespace = true) :
    c = ' ' ∨ c = '\t' ∨ c = '\r' ∨ c = '\n' := by
  simp only [Char.isWhitespace, Bool.or_eq_true, decide_eq_true_eq] at h
  tauto

theorem ws_false_of_isAlpha (c : Char) (h : c.isAlpha = true) :
    c.isWhitespace = false := by
  rcases Bool.eq_false_or_eq_true c.isWhitespace with hw | hw
  · rcases isWhitespace_cases c hw with rfl | rfl | rfl | rfl <;> exact absurd h (by decide)
  · exact hw

theorem ws_false_of_isDigit (c : Char) (h : c.isDigit = true) :
    c.isWhitespace = false := by
  rcases Bool.eq_false_or_eq_true c.isWhitespace with hw | hw
  · rcases isWhitespace_cases c hw with rfl | rfl | rfl | rfl <;> exact absurd h (by decide)
  · exact hw

theorem ws_false_of_isAlphanum (c : Char) (h : c.isAlphanum = true) :
    c.isWhitespace = false := by
  rw [Char.isAlphanum, Bool.or_eq_true] at h
  rcases h with h | h
  · exact ws_false_of_isAlpha c h
  · exact ws_false_of_isDigit c h

theorem isGradeLetter_cases (c : Char) (h : isGradeLetter c = true) :
    c = 'A' ∨ c = 'B' ∨ c = 'C' ∨ c = 'D' ∨ c = 'F' ∨ c = 'P' := by
  simp only [isGradeLetter, Bool.or_eq_true, beq_iff_eq] at h
  tauto

theorem gradeToken_no_ws (g : List Char) (h : isGradeToken g = true) :
    ∀ c ∈ g, c.isWhitespace = false := by
  intro c hc
  rw [isGradeToken, Bool.or_eq_true] at h
  rcases h with h | h
  · rcases g with _ | ⟨a, _ | ⟨m, _ | ⟨x, t⟩⟩⟩
    · simp at hc
    · rcases List.mem_singleton.mp hc with rfl
      rw [isLetterGrade] at h
      rcases isGradeLetter_cases c h with rfl | rfl | rfl | rfl | rfl | rfl <;> decide
    · rw [isLetterGrade, Bool.and_eq_true] at h
      obtain ⟨ha, hm⟩ := h
      rcases List.mem_cons.mp hc with rfl | hc2
      · rcases isGradeLetter_cases c ha with rfl | rfl | rfl | rfl | rfl | rfl <;> decide
      · rcases List.mem_singleton.mp hc2 with rfl
        rw [Bool.or_eq_true, beq_iff_eq, beq_iff_eq] at hm
        rcases hm with rfl | rfl <;> decide
    · simp [isLetterGrade] at h
  · rw [isNumericGrade] at h
    simp only [Bool.and_eq_true, decide_eq_true_eq, Bool.or_eq_true, beq_iff_eq] at h
    obtain ⟨⟨h1, h3⟩, hrest⟩ := h
    rw [← List.takeWhile_append_dropWhile (p := Char.isDigit) (l := g)] at hc
    rcases List.mem_append.mp hc with hc | hc
    · exact ws_false_of_isDigit c (List.mem_takeWhile_imp hc)
    · rcases hrest with hrest | hrest
      · rw [hrest] at hc
        simp at hc
      · rw [hrest] at hc
        rcases List.mem_singleton.mp hc with rfl
        decide

theorem trimChars_of_no_ws (cs : List Char) (h : ∀ c ∈ cs, c.isWhitespace = false) :
    trimChars cs = cs := by
  rw [trimChars, dropWhile_all_false _ _ h,
    dropWhile_all_false _ _ (fun c hc => h c (List.mem_reverse.mp hc)),
    List.reverse_reverse]

theorem trimChars_space_cons (g : List Char) (h : ∀ c ∈ g, c.isWhitespace = false) :
    trimChars (' ' :: g) = g := by
  rw [trimChars, List.dropWhile_cons_of_pos (by decide),
    dropWhile_all_false _ _ h,
    dropWhile_all_false _ _ (fun c hc => h c (List.mem_reverse.mp hc)),
    List.reverse_reverse]

theorem isAlpha_toLower (c : Char) (h : c.isAlpha = true) : c.toLower.isAlpha = true := by
  unfold Char.toLower
  by_cases hn : c.toNat ≥ 65 ∧ c.toNat ≤ 90
  · rw [if_pos hn]
    obtain ⟨h1, h2⟩ := hn
    have hv : Nat.isValidChar (Char.toNat c + 32) := Or.inl (by omega)
    rw [Char.ofNat, dif_pos hv]
    simp only [Char.ofNatAux, Char.isAlpha, Char.isLower, Char.isUpper, Bool.or_eq_true]
    right
    simp only [GE.ge, Bool.and_eq_true, decide_eq_true_eq, UInt32.le_def, BitVec.le_def,
      BitVec.toNat_ofNatLt]
    constructor <;> simp <;> omega
  · rw [if_neg hn]
    exact h

theorem bullet_not_ws (b : Char) (hb : isBullet b = true) : b.isWhitespace = false := by
  rw [isBullet, Bool.or_eq_true, beq_iff_eq, beq_iff_eq] at hb
  rcases hb with rfl | rfl <;> decide

theorem parseCourseLine_cons (b : Char) (rest : List Char)
    (hbws : b.isWhitespace = false) :
    parseCourseLine (b :: rest) = if isBullet b then parseSubject rest else none := by
  rw [parseCourseLine, List.dropWhile_cons_of_neg (by simp [hbws])]

theorem parseColon_cons (subj num tail : List Char) (rest : List Char)
    (h : rest.dropWhile Char.isWhitespace = ':' :: tail) :
    parseColon subj num rest = parseGrade subj num tail := by
  rw [parseColon, h]
  rfl

/-- Scanning one line of the recognized shape (bullet, subject of 2-6
letters, number of 3-5 alphanumerics, colon, then any whitespace-free
candidate grade) reaches the grade-token test, which alone decides whether
a ParsedCourse is produced. -/
theorem parseCourseLine_shape (b : Char) (subj num grade : List Char)
    (hb : isBullet b = true)
    (hsub : ∀ c ∈ subj, c.isAlpha = true) (hs2 : 2 ≤ subj.length) (hs6 : subj.length ≤ 6)
    (hnum : ∀ c ∈ num, c.isAlphanum = true) (hn3 : 3 ≤ num.length) (hn5 : num.length ≤ 5)
    (hgws : ∀ c ∈ grade, c.isWhitespace = false) :
    parseCourseLine (b :: ' ' :: (subj ++ ' ' :: (num ++ ':' :: ' ' :: grade)))
      = if isGradeToken grade then some ⟨⟨subj⟩, ⟨num⟩⟩ else none := by
  have hbws : b.isWhitespace = false := bullet_not_ws b hb
  obtain ⟨s0, st, rfl⟩ : ∃ s0 st, subj = s0 :: st := by
    rcases subj with _ | ⟨s0, st⟩
    · simp at hs2
    · exact ⟨s0, st, rfl⟩
  obtain ⟨n0, nt, rfl⟩ : ∃ n0 nt, num = n0 :: nt := by
    rcases num with _ | ⟨n0, nt⟩
    · simp at hn3
    · exact ⟨n0, nt, rfl⟩
  rw [parseCourseLine_cons _ _ hbws, if_pos hb]
  rw [parseSubject]
  rw [List.dropWhile_cons_of_pos (by decide), List.cons_append,
    List.dropWhile_cons_of_neg
      (by simp [ws_false_of_isAlpha s0 (hsub s0 (List.mem_cons_self s0 st))]),
    ← List.cons_append,
    takeWhile_all_append Char.isAlpha (s0 :: st) ' ' _ hsub (by decide),
    dropWhile_all_append Char.isAlpha (s0 :: st) ' ' _ hsub (by decide)]
  rw [if_pos ⟨hs2, hs6⟩]
  rw [parseNumber]
  rw [List.dropWhile_cons_of_pos (by decide), List.cons_append,
    List.dropWhile_cons_of_neg
      (by simp [ws_false_of_isAlphanum n0 (hnum n0 (List.mem_cons_self n0 nt))]),
    ← List.cons_append,
    takeWhile_all_append Char.isAlphanum (n0 :: nt) ':' _ hnum (by decide),
    dropWhile_all_append Char.isAlphanum (n0 :: nt) ':' _ hnum (by decide)]
  rw [if_pos ⟨hn3, hn5⟩]
  rw [parseColon_cons _ _ (' ' :: grade) _ (List.dropWhile_cons_of_neg (by decide))]
  rw [parseGrade, trimChars_space_cons grade hgws]

theorem splitLines_no_newline (l : List Char) (h : '\n' ∉ l) : splitLines l = [l] := by
  induction l with
  | nil => rfl
  | cons c t ih =>
    have hcn : c ≠ '\n' := fun hc => h (by rw [← hc]; exact List.mem_cons_self c t)
    rw [splitLines, if_neg hcn, ih (fun ht => h (List.mem_cons_of_mem c ht))]

theorem splitLines_append (l t : List Char) (h : '\n' ∉ l) :
    splitLines (l ++ '\n' :: t) = l :: splitLines t := by
  induction l with
  | nil =>
    rw [List.nil_append, splitLines, if_pos rfl]
  | cons c cs ih =>
    have hcn : c ≠ '\n' := fun hc => h (by rw [← hc]; exact List.mem_cons_self c cs)
    rw [List.cons_append, splitLines, if_neg hcn,
      ih (fun ht => h (List.mem_cons_of_mem c ht))]

theorem splitLines_joinLines (lines : List (List Char)) (hne : lines ≠ [])
    (h : ∀ l ∈ lines, '\n' ∉ l) : splitLines (joinLines lines) = lines := by
  induction lines with
  | nil => exact absurd rfl hne
  | cons l ls ih =>
    cases ls with
    | nil => exact splitLines_no_newline l (h l (List.mem_cons_self l []))
    | cons l2 ls2 =>
      rw [joinLines, splitLines_append _ _ (h l (List.mem_cons_self l (l2 :: ls2))),
        ih (by simp) (fun x hx => h x (List.mem_cons_of_mem l hx))]

/-! ## Claim theorems -/

/-- C1: for every input line of the summary text whose grade token is the
bare letter "W", parsePassedCourses emits no ParsedCourse for that line
(the scan of a line with a well-formed bullet, subject and number but the
grade token "W" yields nothing); in particular the concrete line
"- ENGL 2XX: W" produces no parsed course. -/
theorem claim_C1_withdrawal_grade_not_parsed (b : Char) (subj num : List Char)
    (hb : isBullet b = true)
    (hsub : ∀ c ∈ subj, c.isAlpha = true) (hs2 : 2 ≤ subj.length) (hs6 : subj.length ≤ 6)
    (hnum : ∀ c ∈ num, c.isAlphanum = true) (hn3 : 3 ≤ num.length) (hn5 : num.length ≤ 5) :
    parseCourseLine (b :: ' ' :: (subj ++ ' ' :: (num ++ ':' :: ' ' :: ['W']))) = none
    ∧ parsePassedCourses "- ENGL 2XX: W" = [] := by
  constructor
  · rw [parseCourseLine_shape b subj num ['W'] hb hsub hs2 hs6 hnum hn3 hn5 (by decide),
      if_neg (by decide)]
  · decide

/-- Witness for C1 at the concrete line "- ENGL 2XX: W". -/
theorem claim_C1_witness :
    parseCourseLine ('-' :: ' ' :: (['E', 'N', 'G', 'L'] ++ ' ' :: (['2', 'X', 'X'] ++ ':' :: ' ' :: ['W']))) = none
    ∧ parsePassedCourses "- ENGL 2XX: W" = [] :=
  claim_C1_withdrawal_grade_not_parsed '-' ['E', 'N', 'G', 'L'] ['2', 'X', 'X']
    (by decide) (by decide) (by decide) (by decide) (by decide) (by decide) (by decide)

/-- C2: matchAgreements includes an agreement row exactly when some parsed
course agrees with it on the normalized (trimmed, case-folded) sender
subject code and sender course number; in particular an agreement whose
SndrSubjectCode is " engl " matches a parsed course with subject "ENGL". -/
theorem claim_C2_matching_rule :
    (∀ (table : List TransferAgreement) (courses : List ParsedCourse) (a : TransferAgreement),
      a ∈ matchAgreements courses table ↔
        a ∈ table ∧ ∃ c ∈ courses,
          norm a.SndrSubjectCode = norm c.subject ∧ norm a.SndrCourseNumber = norm c.number)
    ∧ matchAgreements [⟨"ENGL", "101"⟩] [agreementEngl] = [agreementEngl] := by
  constructor
  · intro table courses a
    rw [matchAgreements, List.mem_flatMap]
    constructor
    · rintro ⟨c, hc, hmem⟩
      rw [List.mem_filter] at hmem
      obtain ⟨hat, hm⟩ := hmem
      rw [agreementMatches, Bool.and_eq_true, beq_iff_eq, beq_iff_eq] at hm
      exact ⟨hat, c, hc, hm.1, hm.2⟩
    · rintro ⟨hat, c, hc, h1, h2⟩
      refine ⟨c, hc, ?_⟩
      rw [List.mem_filter]
      refine ⟨hat, ?_⟩
      rw [agreementMatches, Bool.and_eq_true, beq_iff_eq, beq_iff_eq]
      exact ⟨h1, h2⟩
  · decide

/-- C3: every line made of a bullet marker, a subject token of 2-6
letters, a number token of 3-5 alphanumerics, a colon and a valid grade
token parses to the ParsedCourse holding that subject and number, and
changing the letter case of the subject (here: lower-casing it) still
parses the line. -/
theorem claim_C3_wellformed_line_parses (b : Char) (subj num grade : List Char)
    (hb : isBullet b = true)
    (hsub : ∀ c ∈ subj, c.isAlpha = true) (hs2 : 2 ≤ subj.length) (hs6 : subj.length ≤ 6)
    (hnum : ∀ c ∈ num, c.isAlphanum = true) (hn3 : 3 ≤ num.length) (hn5 : num.length ≤ 5)
    (hg : isGradeToken grade = true) :
    parseCourseLine (b :: ' ' :: (subj ++ ' ' :: (num ++ ':' :: ' ' :: grade)))
      = some ⟨⟨subj⟩, ⟨num⟩⟩
    ∧ parseCourseLine (b :: ' ' :: (subj.map Char.toLower ++ ' ' :: (num ++ ':' :: ' ' :: grade)))
      = some ⟨⟨subj.map Char.toLower⟩, ⟨num⟩⟩ := by
  have hgws := gradeToken_no_ws grade hg
  constructor
  · rw [parseCourseLine_shape b subj num grade hb hsub hs2 hs6 hnum hn3 hn5 hgws, if_pos hg]
  · have hsub2 : ∀ c ∈ subj.map Char.toLower, c.isAlpha = true := by
      intro c hc
      rw [List.mem_map] at hc
      obtain ⟨d, hd, rfl⟩ := hc
      exact isAlpha_toLower d (hsub d hd)
    rw [parseCourseLine_shape b _ num grade hb hsub2 (by simpa using hs2)
      (by simpa using hs6) hnum hn3 hn5 hgws, if_pos hg]

/-- Witness for C3 at the concrete line "- SUBJ 101: A". -/
theorem claim_C3_witness :
    parseCourseLine ('-' :: ' ' :: (['S', 'U', 'B', 'J'] ++ ' ' :: (['1', '0', '1'] ++ ':' :: ' ' :: ['A'])))
      = some ⟨⟨['S', 'U', 'B', 'J']⟩, ⟨['1', '0', '1']⟩⟩
    ∧ parseCourseLine ('-' :: ' ' :: (['S', 'U', 'B', 'J'].map Char.toLower ++ ' ' :: (['1', '0', '1'] ++ ':' :: ' ' :: ['A'])))
      = some ⟨⟨['S', 'U', 'B', 'J'].map Char.toLower⟩, ⟨['1', '0', '1']⟩⟩ :=
  claim_C3_wellformed_line_parses '-' ['S', 'U', 'B', 'J'] ['1', '0', '1'] ['A']
    (by decide) (by decide) (by decide) (by decide) (by decide) (by decide) (by decide) (by decide)

/-- C4: parsePassedCourses returns exactly one ParsedCourse per matching
line, in the order the lines appear in the input (the parse of a
newline-joined list of lines is the in-order filterMap of the line parser
over those lines, non-matching lines contributing nothing), and the empty
string returns the empty sequence. -/
theorem claim_C4_one_course_per_matching_line :
    (∀ lines : List (List Char), lines ≠ [] → (∀ l ∈ lines, '\n' ∉ l) →
      parsePassedCourses ⟨joinLines lines⟩ = lines.filterMap parseCourseLine)
    ∧ parsePassedCourses "" = [] := by
  constructor
  · intro lines hne h
    rw [parsePassedCourses]
    have htl : (String.mk (joinLines lines)).toList = joinLines lines := rfl
    rw [htl, splitLines_joinLines lines hne h]
  · decide

/-- Witness for C4 at a two-line input with one matching line. -/
theorem claim_C4_witness :
    parsePassedCourses ⟨joinLines ["- MATH 101: A+".toList, "Student performed well overall.".toList]⟩
      = [⟨"MATH", "101"⟩] := by
  rw [claim_C4_one_course_per_matching_line.1
    ["- MATH 101: A+".toList, "Student performed well overall.".toList] (by decide) (by decide)]
  decide

/-- C5: for every agreement table, matchAgreements applied to an empty
sequence of parsed courses returns the empty sequence. -/
theorem claim_C5_empty_courses_empty_result :
    ∀ table : List TransferAgreement, matchAgreements [] table = [] :=
  fun _ => rfl

/-- C6: whenever the reference table failed to load and a summary is
present, the matching result is the Blocked sentinel and never
Computed-Empty: the join is skipped entirely. -/
theorem claim_C6_blocked_on_load_failure :
    ∀ summary : String,
      computeMatchState LoadState.failed (some summary) = MatchState.Blocked
      ∧ computeMatchState LoadState.failed (some summary) ≠ MatchState.ComputedEmpty :=
  fun _ => ⟨rfl, by simp [computeMatchState]⟩

/-- C7: when PDF text extraction fails, the failure is surfaced as a
distinct terminal status string with extractedText left null (and an error
message set, the summary cleared); extractTextFromPdf is a total state
transition, so no extraction failure escapes as an exception or is fatal. -/
theorem claim_C7_extraction_failure_degrades :
    ∀ s : AppState,
      (extractTextFromPdf s PdfExtraction.failure).extractedText = none
      ∧ (extractTextFromPdf s PdfExtraction.failure).pdfProcessingStatus
          = some "Error extracting text."
      ∧ (extractTextFromPdf s PdfExtraction.failure).error
          = some "Failed to extract text from the PDF. The file might be corrupted or password-protected."
      ∧ (extractTextFromPdf s PdfExtraction.failure).summaryText = none :=
  fun _ => ⟨rfl, rfl, rfl, rfl⟩

/-- C9: in the auto-summarize variant, a non-empty extracted text that
does not contain "transcript" (case-insensitively) sets the validity
warning; the auto-summarize effect never fires while the warning is
non-null; and when the effect does fire after an extraction, the extracted
text did contain "transcript". -/
theorem claim_C9_validity_warning_blocks_auto_summarize :
    (∀ (s : AppState) (pages : List String),
      extractedFullText pages ≠ "" →
      containsLower "transcript" (extractedFullText pages) = false →
      (extractTextFromPdf s (PdfExtraction.success pages)).transcriptValidityMessage
        = some "Warning: The uploaded document does not appear to be a transcript.")
    ∧ (∀ (s : AppState) (aiAvailable : Bool),
        s.transcriptValidityMessage ≠ none → autoSummarizeFires s aiAvailable = false)
    ∧ (∀ (s : AppState) (pages : List String) (aiAvailable : Bool),
        autoSummarizeFires (extractTextFromPdf s (PdfExtraction.success pages)) aiAvailable = true →
        containsLower "transcript" (extractedFullText pages) = true) := by
  refine ⟨?_, ?_, ?_⟩
  · intro s pages h1 h2
    simp [extractTextFromPdf, h1, h2]
  · intro s ai h
    rcases hm : s.transcriptValidityMessage with _ | v
    · exact absurd hm h
    · simp [autoSummarizeFires, hm]
  · intro s pages ai h
    by_cases h1 : extractedFullText pages = ""
    · simp [autoSummarizeFires, extractTextFromPdf, h1, strTruthy] at h
    · by_cases h2 : containsLower "transcript" (extractedFullText pages) = true
      · exact h2
      · rw [Bool.not_eq_true] at h2
        simp [autoSummarizeFires, extractTextFromPdf, h1, h2] at h

/-- Witness for C9 at a one-page document reading "hello world". -/
theorem claim_C9_witness :
    (extractTextFromPdf initState (PdfExtraction.success ["hello world"])).transcriptValidityMessage
      = some "Warning: The uploaded document does not appear to be a transcript."
    ∧ autoSummarizeFires (extractTextFromPdf initState (PdfExtraction.success ["hello world"])) true
      = false :=
  ⟨claim_C9_validity_warning_blocks_auto_summarize.1 initState ["hello world"]
      (by decide) (by decide),
    claim_C9_validity_warning_blocks_auto_summarize.2.1
      (extractTextFromPdf initState (PdfExtraction.success ["hello world"])) true (by decide)⟩

/-- C10: a selected file whose MIME type is not "application/pdf" is
rejected: the invalid-file-type error message is set, the file input is
cleared, no read of the file is started, and extractedText and summaryText
are left null. -/
theorem claim_C10_non_pdf_rejected :
    ∀ (s : AppState) (f : UploadFile), f.mimeType ≠ "application/pdf" →
      (handleFileChange s (some f)).state.error
        = some "Invalid file type. Please upload a PDF file."
      ∧ (handleFileChange s (some f)).inputCleared = true
      ∧ (handleFileChange s (some f)).startedRead = false
      ∧ (handleFileChange s (some f)).state.extractedText = none
      ∧ (handleFileChange s (some f)).state.summaryText = none := by
  intro s f h
  simp [handleFileChange, resetPdfStates, h]

/-- Witness for C10 at a PNG upload. -/
theorem claim_C10_witness :
    (handleFileChange initState (some ⟨"image/png", "photo.png"⟩)).state.error
      = some "Invalid file type. Please upload a PDF file."
    ∧ (handleFileChange initState (some ⟨"image/png", "photo.png"⟩)).inputCleared = true
    ∧ (handleFileChange initState (some ⟨"image/png", "photo.png"⟩)).startedRead = false
    ∧ (handleFileChange initState (some ⟨"image/png", "photo.png"⟩)).state.extractedText = none
    ∧ (handleFileChange initState (some ⟨"image/png", "photo.png"⟩)).state.summaryText = none :=
  claim_C10_non_pdf_rejected initState ⟨"image/png", "photo.png"⟩ (by decide)

/-- C8: the claim that a new upload discards all in-flight results of the
previous summarize cycle FAILS on the code: nothing cancels the pending
promise or guards its continuation.  Starting from a state with extracted
text, a summarize call starts; a new PDF upload then resets the state
(summaryText becomes null); when the old call's promise resolves, its
continuation writes the stale summary into summaryText, so the previous
cycle's summary becomes the displayed summary after the reset. -/
theorem claim_C8_stale_summary_after_reset :
    (runEvents ⟨{ initState with extractedText := some "old transcript text" }, false⟩
        [Event.summarizeStart, Event.upload (some ⟨"application/pdf", "new.pdf"⟩)]).app.summaryText
      = none
    ∧ (runEvents ⟨{ initState with extractedText := some "old transcript text" }, false⟩
        [Event.summarizeStart, Event.upload (some ⟨"application/pdf", "new.pdf"⟩),
          Event.summarizeResolve "OLD SUMMARY"]).app.summaryText
      = some "OLD SUMMARY" :=
  ⟨by decide, by decide⟩

end AnalyzeTranscript
